import Mathlib

/-!
Verification of the xweb factory registry (package `xweb`).

The Go source under verification is `registry.go`: a
`WebHandlerFactoryRegistryImpl` backed by a `map[string]WebHandlerFactory`,
with `Add` (fails when the binding is already registered, leaving the map
untouched) and `Get` (plain lookup that yields nil when absent).

Shallow embedding choices:
- A `WebHandlerFactory` is identified by its binding string plus an opaque
  identity tag `fid`, so that two distinct factories may share a binding,
  as two distinct Go interface values can.
- The Go map is embedded as an association list keyed by binding; `Add`
  inserts only when the key is absent, so the list holds at most one entry
  per key and the representation is faithful to a map.
- `Add` returns the (possibly updated) registry together with an optional
  error string, mirroring the Go method that mutates its receiver map and
  returns `error`.
- `Get` returns `Option WebHandlerFactory`: `none` embeds the nil interface
  value a Go map lookup yields for an absent key.
-/

namespace Xweb

/-- A factory value: its configuration binding string plus an identity tag
distinguishing different factory instances that share a binding. -/
structure WebHandlerFactory where
  binding : String
  fid : Nat
  deriving DecidableEq

/-- `Binding()` of a factory: returns the string binding value used in
configurations. -/
def WebHandlerFactory.Binding (f : WebHandlerFactory) : String := f.binding

/-- The registry state: the `factories` map of `registry.go`, embedded as an
association list from binding to factory. -/
structure WebHandlerFactoryRegistryImpl where
  factories : List (String × WebHandlerFactory)
  deriving DecidableEq

/-- Lookup in the embedded map: first entry whose key equals the binding,
as Go map indexing (keys are unique, see the nodup invariant below). -/
def findFactory : List (String × WebHandlerFactory) → String → Option WebHandlerFactory
  | [], _ => none
  | (k, f) :: rest, b => if k = b then some f else findFactory rest b

/-- `NewWebHandlerFactoryRegistryImpl` creates a registry with an empty map. -/
def NewWebHandlerFactoryRegistryImpl : WebHandlerFactoryRegistryImpl :=
  { factories := [] }

/-- `Add` from `registry.go`: errors with `binding [%s] already registered`
when the binding is present, otherwise stores the factory under its binding.
The returned pair is (registry after the call, returned error). -/
def WebHandlerFactoryRegistryImpl.Add (registry : WebHandlerFactoryRegistryImpl)
    (factory : WebHandlerFactory) : WebHandlerFactoryRegistryImpl × Option String :=
  if (findFactory registry.factories factory.Binding).isSome then
    (registry, some ("binding [" ++ factory.Binding ++ "] already registered"))
  else
    ({ factories := (factory.Binding, factory) :: registry.factories }, none)

/-- `Get` from `registry.go`: retrieves a factory based on a binding, or the
absent value (`none`, embedding Go's nil) if no factory is registered. -/
def WebHandlerFactoryRegistryImpl.Get (registry : WebHandlerFactoryRegistryImpl)
    (binding : String) : Option WebHandlerFactory :=
  findFactory registry.factories binding

/-- `Get` as a state-passing operation: the result paired with the registry
state after the call. A Go map read leaves the map unchanged. -/
def WebHandlerFactoryRegistryImpl.GetOp (registry : WebHandlerFactoryRegistryImpl)
    (binding : String) : Option WebHandlerFactory × WebHandlerFactoryRegistryImpl :=
  (findFactory registry.factories binding, registry)

/-- One call against the registry interface: `Add` with a factory or `Get`
with a binding string. -/
inductive RegistryOp where
  | add : WebHandlerFactory → RegistryOp
  | get : String → RegistryOp
  deriving DecidableEq

/-- The registry state after one operation. -/
def applyOp (r : WebHandlerFactoryRegistryImpl) : RegistryOp → WebHandlerFactoryRegistryImpl
  | .add f => (r.Add f).1
  | .get b => (r.GetOp b).2

/-- The registry state reached from a fresh registry by a sequence of calls. -/
def runOps (ops : List RegistryOp) : WebHandlerFactoryRegistryImpl :=
  ops.foldl applyOp NewWebHandlerFactoryRegistryImpl

/-- The binding of an operation when it is an `Add`, else the absent value. -/
def RegistryOp.addedBinding : RegistryOp → Option String
  | .add f => some f.Binding
  | .get _ => none

/-- The list of keys of the registry's map. -/
def bindings (r : WebHandlerFactoryRegistryImpl) : List String :=
  r.factories.map Prod.fst

@[simp]
theorem findFactory_nil (b : String) : findFactory [] b = none := rfl

@[simp]
theorem findFactory_cons (k : String) (f : WebHandlerFactory)
    (rest : List (String × WebHandlerFactory)) (b : String) :
    findFactory ((k, f) :: rest) b = if k = b then some f else findFactory rest b := rfl

theorem findFactory_none_iff (l : List (String × WebHandlerFactory)) (b : String) :
    findFactory l b = none ↔ b ∉ l.map Prod.fst := by
  induction l with
  | nil => simp
  | cons p rest ih =>
    obtain ⟨k, f⟩ := p
    by_cases hk : k = b
    · subst hk; simp
    · simp [hk, ih, Ne.symm hk]

theorem Add_of_absent (r : WebHandlerFactoryRegistryImpl) (F : WebHandlerFactory)
    (h : findFactory r.factories F.Binding = none) :
    r.Add F = ({ factories := (F.Binding, F) :: r.factories }, none) := by
  simp [WebHandlerFactoryRegistryImpl.Add, h]

theorem Add_of_present (r : WebHandlerFactoryRegistryImpl) (F : WebHandlerFactory)
    (h : (findFactory r.factories F.Binding).isSome) :
    r.Add F = (r, some ("binding [" ++ F.Binding ++ "] already registered")) := by
  simp [WebHandlerFactoryRegistryImpl.Add, h]

theorem Add_snd_none_iff (r : WebHandlerFactoryRegistryImpl) (F : WebHandlerFactory) :
    (r.Add F).2 = none ↔ findFactory r.factories F.Binding = none := by
  by_cases h : (findFactory r.factories F.Binding).isSome
  · rw [Add_of_present r F h]
    simp [Option.isSome_iff_exists] at h ⊢
    obtain ⟨G, hG⟩ := h
    simp [hG]
  · rw [Add_of_absent r F (by simpa [Option.not_isSome_iff_eq_none] using h)]
    simpa [Option.not_isSome_iff_eq_none] using h

theorem Get_Add_preserve (r : WebHandlerFactoryRegistryImpl) (g F : WebHandlerFactory)
    (b : String) (h : r.Get b = some F) : ((r.Add g).1).Get b = some F := by
  by_cases hg : (findFactory r.factories g.Binding).isSome
  · rw [Add_of_present r g hg]; exact h
  · rw [Add_of_absent r g (by simpa [Option.not_isSome_iff_eq_none] using hg)]
    have hgb : g.Binding ≠ b := by
      intro he
      rw [Option.not_isSome_iff_eq_none] at hg
      rw [he] at hg
      simp [WebHandlerFactoryRegistryImpl.Get, hg] at h
    simpa [WebHandlerFactoryRegistryImpl.Get, hgb] using h

theorem Get_applyOp_preserve (r : WebHandlerFactoryRegistryImpl) (op : RegistryOp)
    (b : String) (F : WebHandlerFactory) (h : r.Get b = some F) :
    (applyOp r op).Get b = some F := by
  cases op with
  | add g => exact Get_Add_preserve r g F b h
  | get s => exact h

theorem Get_foldl_preserve (more : List RegistryOp) (r : WebHandlerFactoryRegistryImpl)
    (b : String) (F : WebHandlerFactory) (h : r.Get b = some F) :
    (more.foldl applyOp r).Get b = some F := by
  induction more generalizing r with
  | nil => exact h
  | cons op rest ih => exact ih (applyOp r op) (Get_applyOp_preserve r op b F h)

theorem bindings_nodup_Add (r : WebHandlerFactoryRegistryImpl) (g : WebHandlerFactory)
    (h : (bindings r).Nodup) : (bindings (r.Add g).1).Nodup := by
  by_cases hg : (findFactory r.factories g.Binding).isSome
  · rw [Add_of_present r g hg]; exact h
  · rw [Option.not_isSome_iff_eq_none] at hg
    rw [Add_of_absent r g hg]
    have hn : g.Binding ∉ r.factories.map Prod.fst := (findFactory_none_iff _ _).mp hg
    simp only [bindings] at h ⊢
    simp only [List.map_cons, List.nodup_cons]
    exact ⟨hn, h⟩

theorem bindings_nodup_applyOp (r : WebHandlerFactoryRegistryImpl) (op : RegistryOp)
    (h : (bindings r).Nodup) : (bindings (applyOp r op)).Nodup := by
  cases op with
  | add g => exact bindings_nodup_Add r g h
  | get s => exact h

theorem bindings_nodup_foldl (ops : List RegistryOp) (r : WebHandlerFactoryRegistryImpl)
    (h : (bindings r).Nodup) : (bindings (ops.foldl applyOp r)).Nodup := by
  induction ops generalizing r with
  | nil => exact h
  | cons op rest ih => exact ih (applyOp r op) (bindings_nodup_applyOp r op h)

theorem Get_foldl_none (ops : List RegistryOp) (r : WebHandlerFactoryRegistryImpl)
    (b : String) (h : r.Get b = none)
    (hb : b ∉ ops.filterMap RegistryOp.addedBinding) :
    ((ops.foldl applyOp r)).Get b = none := by
  induction ops generalizing r with
  | nil => exact h
  | cons op rest ih =>
    have hstep : (applyOp r op).Get b = none := by
      cases op with
      | get s => exact h
      | add g =>
        have hgb : g.Binding ≠ b := by
          intro he
          apply hb
          simp [RegistryOp.addedBinding, List.filterMap_cons, he]
        show ((r.Add g).1).Get b = none
        by_cases hg : (findFactory r.factories g.Binding).isSome
        · rw [Add_of_present r g hg]; exact h
        · rw [Option.not_isSome_iff_eq_none] at hg
          rw [Add_of_absent r g hg]
          simpa [WebHandlerFactoryRegistryImpl.Get, hgb] using h
    have hrest : b ∉ rest.filterMap RegistryOp.addedBinding := by
      intro hmem
      apply hb
      cases op with
      | get s => simpa [RegistryOp.addedBinding, List.filterMap_cons] using hmem
      | add g => simp [RegistryOp.addedBinding, List.filterMap_cons]; right; simpa using hmem
    exact ih (applyOp r op) hstep hrest

/-- An opaque option key or value: Go's `interface{}` entries of the options
map, treated as pure values compared for equality. -/
structure OptEntry where
  val : String
  deriving DecidableEq

/-- The options mapping `map[interface{}]interface{}`, embedded as a list of
key/value pairs of opaque entries; deep value comparison is equality. -/
abbrev OptionsMap := List (OptEntry × OptEntry)

/-- Opaque listener-level configuration passed to `New`; its shape is defined
outside the core contract. -/
structure WebListener where
  lid : Nat
  deriving DecidableEq

/-- Modelled from the spec: the source holds only the `WebHandler` interface
(`Binding`, `Options`, `RootPath`, `IsHandler`), no concrete implementation,
so a handler is its observable record: binding, the options it was built
from, and its root path. -/
structure WebHandlerImpl where
  hBinding : String
  hOptions : OptionsMap
  hRootPath : String
  deriving DecidableEq

/-- `Binding()` of a handler. -/
def WebHandlerImpl.Binding (h : WebHandlerImpl) : String := h.hBinding

/-- `Options()` of a handler. -/
def WebHandlerImpl.Options (h : WebHandlerImpl) : OptionsMap := h.hOptions

/-- Modelled from the spec: a concrete `WebHandlerFactory` implementation is
absent from the source (only the interface is declared); per the contract its
`New` builds a handler whose `Binding()` equals the factory's binding and
whose `Options()` are exactly the options passed in, or fails on options the
factory rejects (`okOptions`). -/
structure SpecHandlerFactory where
  sBinding : String
  sRootPath : String
  okOptions : OptionsMap → Bool
  deriving Inhabited

/-- `Binding()` of the spec-modelled factory. -/
def SpecHandlerFactory.Binding (F : SpecHandlerFactory) : String := F.sBinding

/-- Modelled from the spec: `New(webListener, options)` constructs one
handler carrying the factory's binding and exactly the given options, and
must fail, returning no handler, rather than return a partially-initialized
handler. -/
def SpecHandlerFactory.New (F : SpecHandlerFactory) (_webListener : WebListener)
    (options : OptionsMap) : Except String WebHandlerImpl :=
  if F.okOptions options then
    Except.ok { hBinding := F.sBinding, hOptions := options, hRootPath := F.sRootPath }
  else
    Except.error ("invalid options for binding [" ++ F.sBinding ++ "]")

/-- Claim C1: for every registry and factories F, F2 with equal bindings,
after `Add F` succeeds, a subsequent `Add F2` fails, leaves the registry's
mapping unchanged, and `Get` on that binding still returns F. -/
theorem add_duplicate_fails_no_overwrite (r : WebHandlerFactoryRegistryImpl)
    (F F2 : WebHandlerFactory) (hb : F2.Binding = F.Binding)
    (hok : (r.Add F).2 = none) :
    (((r.Add F).1).Add F2).2.isSome = true ∧
    (((r.Add F).1).Add F2).1 = (r.Add F).1 ∧
    ((((r.Add F).1).Add F2).1).Get F.Binding = some F := by
  have habs : findFactory r.factories F.Binding = none := (Add_snd_none_iff r F).mp hok
  have hpres : (findFactory ((F.Binding, F) :: r.factories) F2.Binding).isSome := by
    simp [hb]
  simp only [Add_of_absent r F habs]
  simp only [Add_of_present { factories := (F.Binding, F) :: r.factories } F2 hpres]
  refine ⟨rfl, trivial, ?_⟩
  simp [WebHandlerFactoryRegistryImpl.Get]

/-- Witness for C1 at a concrete registry and two factories sharing the
binding string of the example scenario. -/
theorem add_duplicate_fails_no_overwrite_witness :
    (((NewWebHandlerFactoryRegistryImpl.Add ⟨"rest-v1", 0⟩).1).Add ⟨"rest-v1", 1⟩).2.isSome
        = true ∧
    (((NewWebHandlerFactoryRegistryImpl.Add ⟨"rest-v1", 0⟩).1).Add ⟨"rest-v1", 1⟩).1
        = (NewWebHandlerFactoryRegistryImpl.Add ⟨"rest-v1", 0⟩).1 ∧
    ((((NewWebHandlerFactoryRegistryImpl.Add ⟨"rest-v1", 0⟩).1).Add ⟨"rest-v1", 1⟩).1).Get
        (WebHandlerFactory.Binding ⟨"rest-v1", 0⟩) = some ⟨"rest-v1", 0⟩ :=
  add_duplicate_fails_no_overwrite NewWebHandlerFactoryRegistryImpl
    ⟨"rest-v1", 0⟩ ⟨"rest-v1", 1⟩ rfl (by decide)

/-- Claim C2: `Get` on a binding that no `Add` in the call sequence ever
carried returns the absent value. -/
theorem get_never_registered_absent (ops : List RegistryOp) (b : String)
    (hb : b ∉ ops.filterMap RegistryOp.addedBinding) :
    (runOps ops).Get b = none :=
  Get_foldl_none ops NewWebHandlerFactoryRegistryImpl b rfl hb

/-- Witness for C2: a sequence registering rest-v1 only, probed at rest-v2. -/
theorem get_never_registered_absent_witness :
    (runOps [RegistryOp.add ⟨"rest-v1", 0⟩, RegistryOp.get "rest-v1"]).Get "rest-v2"
      = none :=
  get_never_registered_absent
    [RegistryOp.add ⟨"rest-v1", 0⟩, RegistryOp.get "rest-v1"] "rest-v2" (by decide)

/-- Claim C3: `Add` errors iff the factory's binding is already registered;
when it is absent, `Add` succeeds and `Get` on the binding then returns the
factory just stored. -/
theorem add_error_iff_registered (r : WebHandlerFactoryRegistryImpl)
    (F : WebHandlerFactory) :
    ((r.Add F).2.isSome ↔ (r.Get F.Binding).isSome) ∧
    ((r.Get F.Binding) = none →
      (r.Add F).2 = none ∧ ((r.Add F).1).Get F.Binding = some F) := by
  constructor
  · by_cases h : (findFactory r.factories F.Binding).isSome
    · rw [Add_of_present r F h]
      simpa [WebHandlerFactoryRegistryImpl.Get] using h
    · rw [Option.not_isSome_iff_eq_none] at h
      rw [Add_of_absent r F h]
      simp [WebHandlerFactoryRegistryImpl.Get, h]
  · intro h
    have habs : findFactory r.factories F.Binding = none := h
    rw [Add_of_absent r F habs]
    exact ⟨rfl, by simp [WebHandlerFactoryRegistryImpl.Get]⟩

/-- Witness for C3 on a fresh registry with a concrete factory. -/
theorem add_error_iff_registered_witness :
    (NewWebHandlerFactoryRegistryImpl.Add ⟨"rest-v1", 0⟩).2 = none ∧
    ((NewWebHandlerFactoryRegistryImpl.Add ⟨"rest-v1", 0⟩).1).Get
      (WebHandlerFactory.Binding ⟨"rest-v1", 0⟩) = some ⟨"rest-v1", 0⟩ :=
  (add_error_iff_registered NewWebHandlerFactoryRegistryImpl ⟨"rest-v1", 0⟩).2 (by decide)

/-- Claim C4: two factories with distinct bindings added to a fresh registry
both succeed, and `Get` on each binding returns the factory registered under
exactly that binding. -/
theorem distinct_bindings_both_registered (F1 F2 : WebHandlerFactory)
    (hne : F1.Binding ≠ F2.Binding) :
    (NewWebHandlerFactoryRegistryImpl.Add F1).2 = none ∧
    (((NewWebHandlerFactoryRegistryImpl.Add F1).1).Add F2).2 = none ∧
    ((((NewWebHandlerFactoryRegistryImpl.Add F1).1).Add F2).1).Get F1.Binding = some F1 ∧
    ((((NewWebHandlerFactoryRegistryImpl.Add F1).1).Add F2).1).Get F2.Binding = some F2 := by
  have e1 : WebHandlerFactoryRegistryImpl.Add { factories := [] } F1
      = ({ factories := [(F1.Binding, F1)] }, none) := Add_of_absent _ F1 rfl
  have e2 : WebHandlerFactoryRegistryImpl.Add { factories := [(F1.Binding, F1)] } F2
      = ({ factories := [(F2.Binding, F2), (F1.Binding, F1)] }, none) :=
    Add_of_absent _ F2 (by simp [hne])
  simp only [NewWebHandlerFactoryRegistryImpl, e1, e2]
  refine ⟨trivial, trivial, ?_, ?_⟩
  · simp [WebHandlerFactoryRegistryImpl.Get, Ne.symm hne]
  · simp [WebHandlerFactoryRegistryImpl.Get]

/-- Witness for C4 with bindings rest-v1 and rest-v2. -/
theorem distinct_bindings_both_registered_witness :
    (NewWebHandlerFactoryRegistryImpl.Add ⟨"rest-v1", 0⟩).2 = none ∧
    (((NewWebHandlerFactoryRegistryImpl.Add ⟨"rest-v1", 0⟩).1).Add ⟨"rest-v2", 1⟩).2 = none ∧
    ((((NewWebHandlerFactoryRegistryImpl.Add ⟨"rest-v1", 0⟩).1).Add ⟨"rest-v2", 1⟩).1).Get
      (WebHandlerFactory.Binding ⟨"rest-v1", 0⟩) = some ⟨"rest-v1", 0⟩ ∧
    ((((NewWebHandlerFactoryRegistryImpl.Add ⟨"rest-v1", 0⟩).1).Add ⟨"rest-v2", 1⟩).1).Get
      (WebHandlerFactory.Binding ⟨"rest-v2", 1⟩) = some ⟨"rest-v2", 1⟩ :=
  distinct_bindings_both_registered ⟨"rest-v1", 0⟩ ⟨"rest-v2", 1⟩ (by decide)

/-- Claim C5: in every state reachable from the fresh registry by `Add` and
`Get` calls, the stored bindings are pairwise distinct (each binding maps to
at most one factory), and once `Get` returns a factory for a binding, it
still returns that same factory after any further operations. -/
theorem registry_reachable_invariant (ops : List RegistryOp) :
    (bindings (runOps ops)).Nodup ∧
    ∀ b F more, (runOps ops).Get b = some F →
      (runOps (ops ++ more)).Get b = some F := by
  constructor
  · exact bindings_nodup_foldl ops NewWebHandlerFactoryRegistryImpl
      (by simp [bindings, NewWebHandlerFactoryRegistryImpl])
  · intro b F more h
    rw [runOps, List.foldl_append]
    exact Get_foldl_preserve more _ b F h

/-- Witness for C5: rest-v1 stays mapped to its factory after a later
registration of rest-v2. -/
theorem registry_reachable_invariant_witness :
    (runOps ([RegistryOp.add ⟨"rest-v1", 0⟩] ++ [RegistryOp.add ⟨"rest-v2", 1⟩])).Get
      "rest-v1" = some ⟨"rest-v1", 0⟩ :=
  (registry_reachable_invariant [RegistryOp.add ⟨"rest-v1", 0⟩]).2
    "rest-v1" ⟨"rest-v1", 0⟩ [RegistryOp.add ⟨"rest-v2", 1⟩] (by decide)

/-- Claim C6: when `Add` hits an already-registered binding B, the returned
error message is exactly `binding [B] already registered`. -/
theorem add_duplicate_error_message (r : WebHandlerFactoryRegistryImpl)
    (F : WebHandlerFactory) (h : (r.Get F.Binding).isSome) :
    (r.Add F).2 = some ("binding [" ++ F.Binding ++ "] already registered") := by
  rw [Add_of_present r F h]

/-- Witness for C6: for binding rest-v1 the message reads exactly
`binding [rest-v1] already registered`. -/
theorem add_duplicate_error_message_witness :
    ((WebHandlerFactoryRegistryImpl.mk [("rest-v1", ⟨"rest-v1", 0⟩)]).Add ⟨"rest-v1", 1⟩).2
      = some "binding [rest-v1] already registered" :=
  (add_duplicate_error_message
      (WebHandlerFactoryRegistryImpl.mk [("rest-v1", ⟨"rest-v1", 0⟩)]) ⟨"rest-v1", 1⟩
      (by decide)).trans (congrArg some (by decide))

/-- Claim C7: `Get` is a pure lookup: it leaves the registry state unchanged
and a repeated call on the resulting state returns the same result. -/
theorem get_pure_no_side_effects (r : WebHandlerFactoryRegistryImpl) (b : String) :
    (r.GetOp b).2 = r ∧ (((r.GetOp b).2).GetOp b).1 = (r.GetOp b).1 :=
  ⟨rfl, rfl⟩

/-- Claim C8: a handler successfully built by a factory's `New` reports the
binding of that factory and exactly the options passed to `New`. -/
theorem new_handler_binding_options (F : SpecHandlerFactory) (l : WebListener)
    (options : OptionsMap) (hdl : WebHandlerImpl)
    (hok : F.New l options = Except.ok hdl) :
    hdl.Binding = F.Binding ∧ hdl.Options = options := by
  rw [SpecHandlerFactory.New] at hok
  by_cases hvalid : F.okOptions options = true
  · rw [if_pos hvalid] at hok
    injection hok with he
    subst he
    exact ⟨rfl, rfl⟩
  · rw [if_neg hvalid] at hok
    simp at hok

/-- Witness for C8 at a concrete factory, listener and options mapping. -/
theorem new_handler_binding_options_witness :
    (WebHandlerImpl.Binding
        { hBinding := "rest-v1", hOptions := [(⟨"path"⟩, ⟨"/api"⟩)], hRootPath := "/api" })
      = SpecHandlerFactory.Binding ⟨"rest-v1", "/api", fun _ => true⟩ ∧
    (WebHandlerImpl.Options
        { hBinding := "rest-v1", hOptions := [(⟨"path"⟩, ⟨"/api"⟩)], hRootPath := "/api" })
      = [(⟨"path"⟩, ⟨"/api"⟩)] :=
  new_handler_binding_options ⟨"rest-v1", "/api", fun _ => true⟩ ⟨0⟩
    [(⟨"path"⟩, ⟨"/api"⟩)]
    { hBinding := "rest-v1", hOptions := [(⟨"path"⟩, ⟨"/api"⟩)], hRootPath := "/api" } rfl

/-- Claim C9: a fresh registry is empty: `Get` returns the absent value for
every binding, and the first `Add` of any factory succeeds. -/
theorem fresh_registry_empty (b : String) (F : WebHandlerFactory) :
    NewWebHandlerFactoryRegistryImpl.Get b = none ∧
    (NewWebHandlerFactoryRegistryImpl.Add F).2 = none :=
  ⟨rfl, by rw [Add_of_absent NewWebHandlerFactoryRegistryImpl F rfl]⟩

/-- Claim C10: the empty string is an ordinary binding key: a factory with
empty binding registers under it, `Get` of the empty string returns it, and
a second factory with empty binding is rejected as a duplicate. -/
theorem empty_binding_ordinary_key (r : WebHandlerFactoryRegistryImpl)
    (F F2 : WebHandlerFactory) (hF : F.Binding = "") (hF2 : F2.Binding = "")
    (habs : r.Get "" = none) :
    (r.Add F).2 = none ∧
    ((r.Add F).1).Get "" = some F ∧
    (((r.Add F).1).Add F2).2.isSome = true := by
  have habs' : findFactory r.factories F.Binding = none := by rw [hF]; exact habs
  simp only [Add_of_absent r F habs']
  have hpres : (findFactory ((F.Binding, F) :: r.factories) F2.Binding).isSome := by
    simp [hF, hF2]
  simp only [Add_of_present { factories := (F.Binding, F) :: r.factories } F2 hpres]
  refine ⟨trivial, ?_, rfl⟩
  simp [WebHandlerFactoryRegistryImpl.Get, hF]

/-- Witness for C10 with two empty-binding factories added to a fresh
registry. -/
theorem empty_binding_ordinary_key_witness :
    (NewWebHandlerFactoryRegistryImpl.Add ⟨"", 0⟩).2 = none ∧
    ((NewWebHandlerFactoryRegistryImpl.Add ⟨"", 0⟩).1).Get "" = some ⟨"", 0⟩ ∧
    (((NewWebHandlerFactoryRegistryImpl.Add ⟨"", 0⟩).1).Add ⟨"", 1⟩).2.isSome = true :=
  empty_binding_ordinary_key NewWebHandlerFactoryRegistryImpl ⟨"", 0⟩ ⟨"", 1⟩
    rfl rfl (by decide)

end Xweb
